import Mathlib

/-!
# Verification of the `rip` ZIP structural reader (`src/ziparchive.rs`)

A shallow embedding of the repository's single source file.  A byte source
(an opened file) is modelled as a `List Nat` of its bytes; `u16`/`u32`/`u64`
values are `Nat` with explicit `% 2 ^ 64` where the Rust arithmetic wraps.
Rust's `Read::read` into a zero-initialised buffer never fails on an
in-memory source and zero-fills past end-of-file; it is modelled by
`readAt`, which always returns a buffer of the requested length.
-/

namespace Rip

/-- Little-endian value of a byte list: the head is the least significant
byte. -/
def leNum : List Nat → Nat
  | [] => 0
  | b :: bs => b + 256 * leNum bs

/-- The `w`-byte little-endian encoding of `n` (truncating above
`2 ^ (8 * w)`). -/
def leBytes : Nat → Nat → List Nat
  | 0, _ => []
  | w + 1, n => n % 256 :: leBytes w (n / 256)

/-- Models `seek(Start pos)` followed by `read` into a fresh zeroed buffer
of size `n`: the available bytes at `pos`, zero-padded to length `n`. -/
def readAt (f : List Nat) (pos n : Nat) : List Nat :=
  ((f.drop pos).take n) ++ List.replicate (n - ((f.drop pos).take n).length) 0

/-- `EndOfCentralDirectoryRecord` (src/ziparchive.rs): the fixed 22-byte
EOCD body, `#[repr(C, packed)]`, fields in declaration order. -/
structure EndOfCentralDirectoryRecord where
  magic_number : Nat
  number_of_current_disk : Nat
  disk_where_cdr_starts : Nat
  num_cdr_on_disk : Nat
  total_cdr : Nat
  size_of_cdr : Nat
  offset_cdr_start : Nat
  comment_length : Nat
deriving DecidableEq, Repr

/-- The memcpy in `EndOfCentralDirectoryRecord::load_data` on a
little-endian host: consume the buffer field by field, in declaration
order, each field little-endian of its width (4,2,2,2,2,4,4,2). -/
def EndOfCentralDirectoryRecord.fromBytes (b : List Nat) :
    EndOfCentralDirectoryRecord :=
  let s0 := b
  let magic := leNum (s0.take 4); let s1 := s0.drop 4
  let ncd := leNum (s1.take 2); let s2 := s1.drop 2
  let dwc := leNum (s2.take 2); let s3 := s2.drop 2
  let ncod := leNum (s3.take 2); let s4 := s3.drop 2
  let tot := leNum (s4.take 2); let s5 := s4.drop 2
  let sz := leNum (s5.take 4); let s6 := s5.drop 4
  let off := leNum (s6.take 4); let s7 := s6.drop 4
  let cl := leNum (s7.take 2)
  { magic_number := magic
    number_of_current_disk := ncd
    disk_where_cdr_starts := dwc
    num_cdr_on_disk := ncod
    total_cdr := tot
    size_of_cdr := sz
    offset_cdr_start := off
    comment_length := cl }

/-- The little-endian number held in `b` at absolute byte offset `off`
with width `w` — the documented field layout's reading discipline (the
spec side of the layout claim). -/
def readLE (b : List Nat) (off w : Nat) : Nat :=
  leNum ((b.drop off).take w)

/-- `EndOfCentralDirectoryRecord::load_data`: seek to `offset_starting`,
read 22 bytes (zero-padded), reinterpret, and return
`offset_starting + 22` as a `u64`. -/
def EndOfCentralDirectoryRecord.load_data (f : List Nat)
    (offset_starting : Nat) : EndOfCentralDirectoryRecord × Nat :=
  (EndOfCentralDirectoryRecord.fromBytes (readAt f offset_starting 22),
    (offset_starting + 22) % 2 ^ 64)

/-- `EofRecord` (src/ziparchive.rs): EOCD fixed body plus its start/end
offsets and the trailing comment bytes. -/
structure EofRecord where
  static_data : EndOfCentralDirectoryRecord
  start_offset : Nat
  end_offset : Nat
  comment : List Nat
deriving DecidableEq, Repr

/-- `EofRecord::new`: decode the fixed body at `offset_starting`, then
seek to the returned end offset and read `comment_length` bytes into a
zeroed buffer of that length. -/
def EofRecord.new (f : List Nat) (offset_starting : Nat) : EofRecord :=
  let static_data := (EndOfCentralDirectoryRecord.load_data f offset_starting).1
  let end_offset := (EndOfCentralDirectoryRecord.load_data f offset_starting).2
  let comment_buf := readAt f end_offset static_data.comment_length
  { static_data := static_data
    start_offset := offset_starting
    end_offset := end_offset
    comment := comment_buf }

/-- `LocalFileHeader` (src/ziparchive.rs): fixed 30-byte body fields plus
the variable name/extra/payload buffers. -/
structure LocalFileHeader where
  magic_number : Nat
  version_needed : Nat
  spacer_unused : Nat
  compression_method : Nat
  last_modify_time : Nat
  last_modify_date : Nat
  crc32_uncompressed : Nat
  compressed_size : Nat
  uncompressed_size : Nat
  file_name_length : Nat
  extra_field_length : Nat
  file_name : List Nat
  extra_field : List Nat
  compressed_data : List Nat
deriving DecidableEq, Repr

/-- `CentralDirectoryFileHeader` (src/ziparchive.rs): the fixed 46-byte
central directory file header, `#[repr(C, packed)]`. -/
structure CentralDirectoryFileHeader where
  magic_number : Nat
  version_made_by : Nat
  version_needed : Nat
  spacer_unused : Nat
  compression_method : Nat
  last_modify_time : Nat
  last_modify_date : Nat
  crc32_uncompressed : Nat
  compressed_size : Nat
  uncompressed_size : Nat
  file_name_length : Nat
  extra_field_length : Nat
  file_comment_length : Nat
  disk_number_source : Nat
  internal_file_attributes : Nat
  external_file_attributes : Nat
  relative_offset_localheader : Nat
deriving DecidableEq, Repr

/-- `eof_record_num` in `ZipArchive::new`: the EOCD signature
`0x06054b50` as little-endian bytes. -/
def eof_record_num : List Nat := [0x50, 0x4b, 0x05, 0x06]

/-- The 4-byte window read at offset `o` (zero-padded past end-of-file)
equals the EOCD signature. -/
def sigAt (f : List Nat) (o : Nat) : Prop :=
  readAt f o 4 = eof_record_num

instance (f : List Nat) (o : Nat) : Decidable (sigAt f o) := by
  unfold sigAt; infer_instance

/-- The `while current_index < last_pos` loop of `ZipArchive::new`,
made structurally recursive on the remaining gap `last_pos - i`
(`gap = 0` iff the loop guard `i < last_pos` fails).  Each iteration
seeks to `last_pos - i`, reads a 4-byte window into a zeroed buffer and
breaks — returning the final `current_index` — when it equals the
signature. -/
def scanGo (f : List Nat) (last_pos : Nat) : Nat → Nat → Nat
  | 0, i => i
  | gap + 1, i =>
    if readAt f (last_pos - i) 4 = eof_record_num then i
    else scanGo f last_pos gap (i + 1)

/-- The value of `current_index` after the scan loop of
`ZipArchive::new`: it starts at 1, and the guard is
`current_index < last_pos`. -/
def scanCurrentIndex (f : List Nat) : Nat :=
  scanGo f f.length (f.length - 1) 1

/-- `eofdirectory_offset` in `ZipArchive::new`:
`last_pos - current_index` as wrapping `u64` subtraction. -/
def eocdOffset (f : List Nat) : Nat :=
  (f.length + 2 ^ 64 - scanCurrentIndex f) % 2 ^ 64

/-- `ZipArchive` (src/ziparchive.rs). -/
structure ZipArchive where
  local_file_data : List LocalFileHeader
  central_records : List CentralDirectoryFileHeader
  eof_record : EofRecord
deriving DecidableEq, Repr

/-- `ZipArchive::new`: scan backward for the signature, then parse an
`EofRecord` at the computed offset; the local-file and central-record
vectors are left empty. -/
def ZipArchive.new (f : List Nat) : ZipArchive :=
  { local_file_data := []
    central_records := []
    eof_record := EofRecord.new f (eocdOffset f) }

/-- Modelled from the spec: `entry_count` (spec section 6) is absent from
the source; per the spec's public surface it reports the number of
central-directory entries the archive holds. -/
def ZipArchive.entry_count (a : ZipArchive) : Nat :=
  a.central_records.length

/-- Modelled from the spec: the typed error kinds of spec section 7; the
source has no error type (it panics or silently proceeds). -/
inductive ZipError where
  | IoFailure
  | EocdNotFound
  | TruncatedComment
  | BadCentralDirectoryMagic
  | CentralDirectorySizeMismatch
  | TruncatedCentralDirectory
  | BadLocalHeaderMagic
  | OffsetOutOfRange
  | UnsupportedCompressionMethod
deriving DecidableEq, Repr

/-- Modelled from the spec: the Binary Record Codec's decoder for the
fixed 46-byte Central Directory File Header layout, field by field in
declaration order, little-endian (the codec is absent from the source;
the layout is the source's struct declaration). -/
def decodeCentralDirectoryFileHeader (b : List Nat) :
    CentralDirectoryFileHeader :=
  let s0 := b
  let magic := leNum (s0.take 4); let s1 := s0.drop 4
  let vmb := leNum (s1.take 2); let s2 := s1.drop 2
  let vn := leNum (s2.take 2); let s3 := s2.drop 2
  let sp := leNum (s3.take 2); let s4 := s3.drop 2
  let cm := leNum (s4.take 2); let s5 := s4.drop 2
  let lmt := leNum (s5.take 2); let s6 := s5.drop 2
  let lmd := leNum (s6.take 2); let s7 := s6.drop 2
  let crc := leNum (s7.take 4); let s8 := s7.drop 4
  let cs := leNum (s8.take 4); let s9 := s8.drop 4
  let us := leNum (s9.take 4); let s10 := s9.drop 4
  let fnl := leNum (s10.take 2); let s11 := s10.drop 2
  let efl := leNum (s11.take 2); let s12 := s11.drop 2
  let fcl := leNum (s12.take 2); let s13 := s12.drop 2
  let dns := leNum (s13.take 2); let s14 := s13.drop 2
  let ifa := leNum (s14.take 2); let s15 := s14.drop 2
  let efa := leNum (s15.take 4); let s16 := s15.drop 4
  let rol := leNum (s16.take 4)
  { magic_number := magic
    version_made_by := vmb
    version_needed := vn
    spacer_unused := sp
    compression_method := cm
    last_modify_time := lmt
    last_modify_date := lmd
    crc32_uncompressed := crc
    compressed_size := cs
    uncompressed_size := us
    file_name_length := fnl
    extra_field_length := efl
    file_comment_length := fcl
    disk_number_source := dns
    internal_file_attributes := ifa
    external_file_attributes := efa
    relative_offset_localheader := rol }

/-- Modelled from the spec: the Binary Record Codec's encoder for the
fixed 46-byte Central Directory File Header layout. -/
def encodeCentralDirectoryFileHeader (r : CentralDirectoryFileHeader) :
    List Nat :=
  leBytes 4 r.magic_number ++ leBytes 2 r.version_made_by ++
  leBytes 2 r.version_needed ++ leBytes 2 r.spacer_unused ++
  leBytes 2 r.compression_method ++ leBytes 2 r.last_modify_time ++
  leBytes 2 r.last_modify_date ++ leBytes 4 r.crc32_uncompressed ++
  leBytes 4 r.compressed_size ++ leBytes 4 r.uncompressed_size ++
  leBytes 2 r.file_name_length ++ leBytes 2 r.extra_field_length ++
  leBytes 2 r.file_comment_length ++ leBytes 2 r.disk_number_source ++
  leBytes 2 r.internal_file_attributes ++
  leBytes 4 r.external_file_attributes ++
  leBytes 4 r.relative_offset_localheader

/-- All fields of a Central Directory File Header value fit their
declared `u16`/`u32` widths. -/
def CentralDirectoryFileHeader.wf (r : CentralDirectoryFileHeader) : Prop :=
  r.magic_number < 2 ^ 32 ∧ r.version_made_by < 2 ^ 16 ∧
  r.version_needed < 2 ^ 16 ∧ r.spacer_unused < 2 ^ 16 ∧
  r.compression_method < 2 ^ 16 ∧ r.last_modify_time < 2 ^ 16 ∧
  r.last_modify_date < 2 ^ 16 ∧ r.crc32_uncompressed < 2 ^ 32 ∧
  r.compressed_size < 2 ^ 32 ∧ r.uncompressed_size < 2 ^ 32 ∧
  r.file_name_length < 2 ^ 16 ∧ r.extra_field_length < 2 ^ 16 ∧
  r.file_comment_length < 2 ^ 16 ∧ r.disk_number_source < 2 ^ 16 ∧
  r.internal_file_attributes < 2 ^ 16 ∧
  r.external_file_attributes < 2 ^ 32 ∧
  r.relative_offset_localheader < 2 ^ 32

instance (r : CentralDirectoryFileHeader) : Decidable r.wf := by
  unfold CentralDirectoryFileHeader.wf; infer_instance

/-- The fixed 30-byte layout of `LocalFileHeader` (the source struct's
fixed fields, without the variable name/extra/payload buffers). -/
structure LocalFileHeaderFixed where
  magic_number : Nat
  version_needed : Nat
  spacer_unused : Nat
  compression_method : Nat
  last_modify_time : Nat
  last_modify_date : Nat
  crc32_uncompressed : Nat
  compressed_size : Nat
  uncompressed_size : Nat
  file_name_length : Nat
  extra_field_length : Nat
deriving DecidableEq, Repr

/-- Modelled from the spec: the Binary Record Codec's decoder for the
fixed 30-byte Local File Header layout. -/
def decodeLocalFileHeaderFixed (b : List Nat) : LocalFileHeaderFixed :=
  let s0 := b
  let magic := leNum (s0.take 4); let s1 := s0.drop 4
  let vn := leNum (s1.take 2); let s2 := s1.drop 2
  let sp := leNum (s2.take 2); let s3 := s2.drop 2
  let cm := leNum (s3.take 2); let s4 := s3.drop 2
  let lmt := leNum (s4.take 2); let s5 := s4.drop 2
  let lmd := leNum (s5.take 2); let s6 := s5.drop 2
  let crc := leNum (s6.take 4); let s7 := s6.drop 4
  let cs := leNum (s7.take 4); let s8 := s7.drop 4
  let us := leNum (s8.take 4); let s9 := s8.drop 4
  let fnl := leNum (s9.take 2); let s10 := s9.drop 2
  let efl := leNum (s10.take 2)
  { magic_number := magic
    version_needed := vn
    spacer_unused := sp
    compression_method := cm
    last_modify_time := lmt
    last_modify_date := lmd
    crc32_uncompressed := crc
    compressed_size := cs
    uncompressed_size := us
    file_name_length := fnl
    extra_field_length := efl }

/-- Modelled from the spec: the Binary Record Codec's encoder for the
fixed 30-byte Local File Header layout. -/
def encodeLocalFileHeaderFixed (r : LocalFileHeaderFixed) : List Nat :=
  leBytes 4 r.magic_number ++ leBytes 2 r.version_needed ++
  leBytes 2 r.spacer_unused ++ leBytes 2 r.compression_method ++
  leBytes 2 r.last_modify_time ++ leBytes 2 r.last_modify_date ++
  leBytes 4 r.crc32_uncompressed ++ leBytes 4 r.compressed_size ++
  leBytes 4 r.uncompressed_size ++ leBytes 2 r.file_name_length ++
  leBytes 2 r.extra_field_length

/-- All fields of a Local File Header fixed-layout value fit their
declared `u16`/`u32` widths. -/
def LocalFileHeaderFixed.wf (r : LocalFileHeaderFixed) : Prop :=
  r.magic_number < 2 ^ 32 ∧ r.version_needed < 2 ^ 16 ∧
  r.spacer_unused < 2 ^ 16 ∧ r.compression_method < 2 ^ 16 ∧
  r.last_modify_time < 2 ^ 16 ∧ r.last_modify_date < 2 ^ 16 ∧
  r.crc32_uncompressed < 2 ^ 32 ∧ r.compressed_size < 2 ^ 32 ∧
  r.uncompressed_size < 2 ^ 32 ∧ r.file_name_length < 2 ^ 16 ∧
  r.extra_field_length < 2 ^ 16

instance (r : LocalFileHeaderFixed) : Decidable r.wf := by
  unfold LocalFileHeaderFixed.wf; infer_instance

/-- Modelled from the spec: a central-directory entry as read by the
Central Directory Reader of spec section 4.4 — the fixed header followed
by its name/extra/comment buffers (the reader is absent from the source,
which leaves `central_records` empty). -/
structure CentralDirectoryEntry where
  fixed : CentralDirectoryFileHeader
  file_name : List Nat
  extra_field : List Nat
  file_comment : List Nat
deriving DecidableEq, Repr

/-- Modelled from the spec: an exact read of `n` bytes at `pos` for the
Central Directory Reader; a short read is `TruncatedCentralDirectory`
(spec section 4.4). -/
def readExactCD (f : List Nat) (pos n : Nat) :
    Except ZipError (List Nat) :=
  if pos + n ≤ f.length then .ok ((f.drop pos).take n)
  else .error ZipError.TruncatedCentralDirectory

/-- Modelled from the spec: one iteration of the Central Directory
Reader — decode the fixed 46-byte body, verify its magic, then read the
name, extra and comment buffers in that order; returns the entry and the
advanced cursor position. -/
def readCDEntry (f : List Nat) (pos : Nat) :
    Except ZipError (CentralDirectoryEntry × Nat) :=
  match readExactCD f pos 46 with
  | .error err => .error err
  | .ok body =>
    let hd := decodeCentralDirectoryFileHeader body
    if hd.magic_number = 0x02014b50 then
      match readExactCD f (pos + 46) hd.file_name_length with
      | .error err => .error err
      | .ok name =>
        match readExactCD f (pos + 46 + hd.file_name_length)
            hd.extra_field_length with
        | .error err => .error err
        | .ok extra =>
          match readExactCD f
              (pos + 46 + hd.file_name_length + hd.extra_field_length)
              hd.file_comment_length with
          | .error err => .error err
          | .ok comment =>
            .ok (⟨hd, name, extra, comment⟩,
              pos + 46 + hd.file_name_length + hd.extra_field_length +
                hd.file_comment_length)
    else .error ZipError.BadCentralDirectoryMagic

/-- Modelled from the spec: the Central Directory Reader's loop, run
exactly `count` times from cursor position `pos`; returns the entries in
order and the final cursor position. -/
def readCDFrom (f : List Nat) : Nat → Nat →
    Except ZipError (List CentralDirectoryEntry × Nat)
  | pos, 0 => .ok ([], pos)
  | pos, count + 1 =>
    match readCDEntry f pos with
    | .error err => .error err
    | .ok (e, pos') =>
      match readCDFrom f pos' count with
      | .error err => .error err
      | .ok (rest, finalPos) => .ok (e :: rest, finalPos)

/-- Modelled from the spec: the Central Directory Reader (spec section
4.4) — seek to `offset_cdr_start`, decode exactly `total_cdr` entries,
then check that the cursor's final position minus `offset_cdr_start`
equals `size_of_cdr`, signaling `CentralDirectorySizeMismatch`
otherwise. -/
def readCentralDirectory (f : List Nat)
    (offset_cdr_start total_cdr size_of_cdr : Nat) :
    Except ZipError (List CentralDirectoryEntry) :=
  match readCDFrom f offset_cdr_start total_cdr with
  | .error err => .error err
  | .ok (entries, finalPos) =>
    if finalPos - offset_cdr_start = size_of_cdr then .ok entries
    else .error ZipError.CentralDirectorySizeMismatch

/-- The bytes a central-directory entry occupies: the fixed body plus its
three variable buffers. -/
def CentralDirectoryEntry.size (e : CentralDirectoryEntry) : Nat :=
  46 + e.file_name.length + e.extra_field.length + e.file_comment.length

/-! ## Concrete input files -/

/-- A 30-byte file holding a length-consistent EOCD at offset 0
(`comment_length = 8`, so `0 + 22 + 8 = 30`) whose comment embeds a decoy
copy of the signature at offset 26. -/
def decoyFile : List Nat :=
  [0x50, 0x4b, 0x05, 0x06] ++ List.replicate 16 0 ++ [8, 0] ++
  [0, 0, 0, 0, 0x50, 0x4b, 0x05, 0x06]

/-- A 24-byte file holding an EOCD at offset 0 that declares a 5-byte
comment but is truncated after 2 comment bytes. -/
def truncFile : List Nat :=
  [0x50, 0x4b, 0x05, 0x06] ++ List.replicate 16 0 ++ [5, 0] ++ [0xAA, 0xBB]

/-- The minimal 22-byte empty archive: the EOCD signature followed by 18
zero bytes (all counts, sizes, offsets and the comment length zero). -/
def minimalArchive : List Nat :=
  [0x50, 0x4b, 0x05, 0x06] ++ List.replicate 18 0

/-- A 68-byte valid archive: one all-zero central-directory file header
(magic `0x02014b50`, empty name/extra/comment) at offset 0, followed at
offset 46 by a length-consistent EOCD declaring `total_cdr = 1`,
`size_of_cdr = 46`, `offset_cdr_start = 0` and an empty comment. -/
def oneEntryArchive : List Nat :=
  [0x50, 0x4b, 0x01, 0x02] ++ List.replicate 42 0 ++
  [0x50, 0x4b, 0x05, 0x06] ++ [0, 0, 0, 0] ++ [1, 0, 1, 0] ++
  [46, 0, 0, 0] ++ [0, 0, 0, 0] ++ [0, 0]

/-- The central-directory entry held by `oneEntryArchive`. -/
def sampleCDEntry : CentralDirectoryEntry :=
  ⟨⟨0x02014b50, 0, 0, 0, 0, 0, 0, 0, 0, 0, 0, 0, 0, 0, 0, 0, 0⟩,
    [], [], []⟩

/-- A 4-byte file that is exactly the EOCD signature: the signature
occurs at offset 0 and nowhere in `1 .. length - 1`. -/
def sigAtZeroFile : List Nat := [0x50, 0x4b, 0x05, 0x06]

/-- A sample well-formed Central Directory File Header value. -/
def sampleCDFH : CentralDirectoryFileHeader :=
  ⟨0x02014b50, 20, 20, 0, 8, 0x7d1c, 0x5a7e, 0xdeadbeef, 100, 200,
    5, 0, 3, 0, 1, 0x81a40000, 1234⟩

/-- A sample well-formed Local File Header fixed-layout value. -/
def sampleLFH : LocalFileHeaderFixed :=
  ⟨0x04034b50, 20, 0, 0, 0x6b32, 0x2c41, 0xcafebabe, 5, 5, 5, 0⟩

/-! ## Helper lemmas: byte primitives -/

lemma readAt_length (f : List Nat) (pos n : Nat) :
    (readAt f pos n).length = n := by
  unfold readAt
  simp only [List.length_append, List.length_replicate, List.length_take,
    List.length_drop]
  omega

lemma leBytes_length (w n : Nat) : (leBytes w n).length = w := by
  induction w generalizing n with
  | zero => rfl
  | succ w ih => simp [leBytes, ih]

lemma leNum_leBytes (w n : Nat) : leNum (leBytes w n) = n % 2 ^ (8 * w) := by
  induction w generalizing n with
  | zero => simp [leBytes, leNum]; omega
  | succ w ih =>
    simp only [leBytes, leNum, ih]
    rw [show 8 * (w + 1) = 8 + 8 * w by ring, pow_add]
    rw [show (2 : Nat) ^ 8 = 256 by norm_num, Nat.mod_mul]

lemma take_leBytes_append (w n : Nat) (rest : List Nat) :
    (leBytes w n ++ rest).take w = leBytes w n := by
  have h := List.take_left (leBytes w n) rest
  rwa [leBytes_length] at h

lemma drop_leBytes_append (w n : Nat) (rest : List Nat) :
    (leBytes w n ++ rest).drop w = rest := by
  have h := List.drop_left (leBytes w n) rest
  rwa [leBytes_length] at h

lemma take_leBytes (w n : Nat) : (leBytes w n).take w = leBytes w n := by
  have h := List.take_length (leBytes w n)
  rwa [leBytes_length] at h

/-! ## Helper lemmas: the backward scan loop -/

lemma scanGo_bounds (f : List Nat) (L : Nat) :
    ∀ gap i, i ≤ scanGo f L gap i ∧ scanGo f L gap i ≤ i + gap := by
  intro gap
  induction gap with
  | zero => intro i; simp [scanGo]
  | succ g ih =>
    intro i
    simp only [scanGo]
    split
    · omega
    · have := ih (i + 1); omega

lemma scanGo_exhaust (f : List Nat) (L : Nat)
    (hno : ∀ o, o < L → 1 ≤ o → ¬ sigAt f o) :
    ∀ gap i, L - i = gap → 1 ≤ i → scanGo f L gap i = i + gap := by
  intro gap
  induction gap with
  | zero => intro i _ _; simp [scanGo]
  | succ g ih =>
    intro i hg hi
    have hiL : i < L := by omega
    have hoff : readAt f (L - i) 4 ≠ eof_record_num :=
      hno (L - i) (by omega) (by omega)
    simp only [scanGo]
    rw [if_neg hoff]
    rw [ih (i + 1) (by omega) (by omega)]
    omega

lemma scanGo_break (f : List Nat) (L : Nat) :
    ∀ gap i, scanGo f L gap i < i + gap → sigAt f (L - scanGo f L gap i) := by
  intro gap
  induction gap with
  | zero => intro i h; simp [scanGo] at h
  | succ g ih =>
    intro i h
    by_cases hc : readAt f (L - i) 4 = eof_record_num
    · simp only [scanGo, if_pos hc]
      exact hc
    · simp only [scanGo, if_neg hc] at h ⊢
      exact ih (i + 1) (by omega)

lemma scanGo_not_skipped (f : List Nat) (L : Nat) :
    ∀ gap i j, i ≤ j → j < scanGo f L gap i → ¬ sigAt f (L - j) := by
  intro gap
  induction gap with
  | zero => intro i j hij hj; simp [scanGo] at hj; omega
  | succ g ih =>
    intro i j hij hj
    by_cases hc : readAt f (L - i) 4 = eof_record_num
    · simp only [scanGo, if_pos hc] at hj
      omega
    · simp only [scanGo, if_neg hc] at hj
      rcases Nat.eq_or_lt_of_le hij with rfl | hlt
      · exact hc
      · exact ih (i + 1) j (by omega) hj

/-! ## Helper lemmas: the central directory reader -/

lemma readExactCD_ok_length {f : List Nat} {pos n : Nat} {l : List Nat}
    (h : readExactCD f pos n = .ok l) : l.length = n := by
  unfold readExactCD at h
  split at h
  · cases h
    simp only [List.length_take, List.length_drop]
    omega
  · cases h

lemma readCDEntry_ok {f : List Nat} {pos : Nat}
    {e : CentralDirectoryEntry} {pos' : Nat}
    (h : readCDEntry f pos = .ok (e, pos')) :
    e.fixed.magic_number = 0x02014b50 ∧ pos' = pos + e.size := by
  unfold readCDEntry at h
  split at h
  · cases h
  · simp only [] at h
    split at h
    · next hm =>
      split at h
      · cases h
      · next name h2 =>
        split at h
        · cases h
        · next extra h3 =>
          split at h
          · cases h
          · next comment h4 =>
            cases h
            refine ⟨hm, ?_⟩
            simp only [CentralDirectoryEntry.size, readExactCD_ok_length h2,
              readExactCD_ok_length h3, readExactCD_ok_length h4]
            omega
    · cases h

lemma readCDFrom_ok {f : List Nat} :
    ∀ {count pos : Nat} {es : List CentralDirectoryEntry} {fp : Nat},
    readCDFrom f pos count = .ok (es, fp) →
    es.length = count ∧ fp = pos + (es.map CentralDirectoryEntry.size).sum ∧
    ∀ e ∈ es, e.fixed.magic_number = 0x02014b50 := by
  intro count
  induction count with
  | zero =>
    intro pos es fp h
    unfold readCDFrom at h
    cases h
    simp
  | succ n ih =>
    intro pos es fp h
    unfold readCDFrom at h
    split at h
    · cases h
    · next entry pos' h1 =>
      split at h
      · cases h
      · next rest finalPos h2 =>
        cases h
        obtain ⟨hm, hpos'⟩ := readCDEntry_ok h1
        obtain ⟨hlen, hfp, hall⟩ := ih h2
        refine ⟨by simp [hlen], ?_, ?_⟩
        · simp only [List.map_cons, List.sum_cons]
          omega
        · intro x hx
          rcases List.mem_cons.mp hx with rfl | hx
          · exact hm
          · exact hall x hx

/-! ## Claim theorems -/

/-- C6: for every input buffer, decoding the EOCD fixed body field by
field in declaration order yields the little-endian value of the buffer
at the documented absolute offsets — magic at 0 (width 4), disk numbers
at 4 and 6 (width 2), `num_cdr_on_disk` at 8, `total_cdr` at 10,
`size_of_cdr` at 12 (width 4), `offset_cdr_start` at 16 (width 4) and
`comment_length` at 20 (width 2). -/
theorem eocd_fixed_body_layout (b : List Nat) :
    EndOfCentralDirectoryRecord.fromBytes b =
      { magic_number := readLE b 0 4
        number_of_current_disk := readLE b 4 2
        disk_where_cdr_starts := readLE b 6 2
        num_cdr_on_disk := readLE b 8 2
        total_cdr := readLE b 10 2
        size_of_cdr := readLE b 12 4
        offset_cdr_start := readLE b 16 4
        comment_length := readLE b 20 2 } := by
  simp [EndOfCentralDirectoryRecord.fromBytes, readLE, List.drop_drop]

/-- C9: every `EofRecord` built by `EofRecord::new` records the starting
offset it was given, has `end_offset = start_offset + 22` (as `u64`
addition), and its comment buffer's length equals the `comment_length`
declared in the fixed body — the buffer is allocated from the declared
length and zero-filled past the bytes actually read, so its length never
shrinks on a short read. -/
theorem eof_record_invariants (f : List Nat) (off : Nat) :
    (EofRecord.new f off).start_offset = off ∧
    (EofRecord.new f off).end_offset = (off + 22) % 2 ^ 64 ∧
    (EofRecord.new f off).comment.length =
      (EofRecord.new f off).static_data.comment_length := by
  refine ⟨rfl, rfl, ?_⟩
  show (readAt f ((off + 22) % 2 ^ 64)
    (EofRecord.new f off).static_data.comment_length).length = _
  exact readAt_length _ _ _

/-- C10 (amended): for every file of length `L ≥ 1` whose 4-byte window
matches the signature at no offset in `1 .. L-1`, the scan loop exhausts
with `current_index = L` and the computed EOCD start offset is
`L - current_index = 0`; offset 0 itself is never compared inside the
loop (the witness file carries the signature at offset 0 and the loop
still exhausts).  For `L = 0` the claim fails: see the
counterexample. -/
theorem scan_exhaust_yields_offset_zero (f : List Nat) (hL : 1 ≤ f.length)
    (hno : ∀ o, o < f.length → 1 ≤ o → ¬ sigAt f o) :
    scanCurrentIndex f = f.length ∧ eocdOffset f = 0 := by
  have hscan : scanCurrentIndex f = 1 + (f.length - 1) :=
    scanGo_exhaust f f.length hno (f.length - 1) 1 rfl (le_refl 1)
  constructor
  · rw [hscan]; omega
  · unfold eocdOffset
    rw [hscan, show f.length + 2 ^ 64 - (1 + (f.length - 1)) = 2 ^ 64 by omega,
      Nat.mod_self]

/-- Witness for C10's amended theorem at a concrete input (the 4-byte
file that is exactly the signature, so the signature sits at offset 0
and the loop — which never compares offset 0 — still exhausts). -/
theorem scan_exhaust_yields_offset_zero_witness :
    1 ≤ sigAtZeroFile.length ∧
    (∀ o, o < sigAtZeroFile.length → 1 ≤ o → ¬ sigAt sigAtZeroFile o) ∧
    (scanCurrentIndex sigAtZeroFile = sigAtZeroFile.length ∧
      eocdOffset sigAtZeroFile = 0) :=
  ⟨by decide, by decide,
    scan_exhaust_yields_offset_zero sigAtZeroFile (by decide) (by decide)⟩

/-- C10 counterexample: on the empty file (`L = 0`) the loop body never
runs, `current_index` stays `1 ≠ L`, and the `u64` subtraction
`L - current_index` wraps to `2^64 - 1` rather than the claimed 0. -/
theorem scan_empty_source_counterexample :
    scanCurrentIndex ([] : List Nat) = 1 ∧
    eocdOffset ([] : List Nat) = 2 ^ 64 - 1 := by
  refine ⟨rfl, by decide⟩

/-- C2 (amended): on every source in which no offset in `1 .. L-1`
matches the signature, `ZipArchive::new` does not fail and returns no
typed error — it returns an archive whose `EofRecord` is parsed at
offset 0 (or at the wrapped offset `2^64 - 1` for the empty source),
zero-filling any bytes past end-of-file. -/
theorem open_without_signature_still_returns_archive (f : List Nat)
    (hno : ∀ o, o < f.length → 1 ≤ o → ¬ sigAt f o) :
    ZipArchive.new f =
      { local_file_data := []
        central_records := []
        eof_record :=
          EofRecord.new f (if f.length = 0 then 2 ^ 64 - 1 else 0) } := by
  have hscan : scanCurrentIndex f = 1 + (f.length - 1) :=
    scanGo_exhaust f f.length hno (f.length - 1) 1 rfl (le_refl 1)
  have hoff : eocdOffset f = if f.length = 0 then 2 ^ 64 - 1 else 0 := by
    unfold eocdOffset
    rw [hscan]
    by_cases h0 : f.length = 0
    · rw [if_pos h0, h0]
      norm_num
    · rw [if_neg h0]
      rw [show f.length + 2 ^ 64 - (1 + (f.length - 1)) = 2 ^ 64 by omega]
      exact Nat.mod_self _
  unfold ZipArchive.new
  rw [hoff]

/-- Witness for C2's amended theorem at a concrete input: a 21-byte
all-zero source (shorter than the fixed EOCD body). -/
theorem open_without_signature_witness :
    (∀ o, o < (List.replicate 21 0 : List Nat).length → 1 ≤ o →
      ¬ sigAt (List.replicate 21 0) o) ∧
    ZipArchive.new (List.replicate 21 0) =
      { local_file_data := []
        central_records := []
        eof_record := EofRecord.new (List.replicate 21 0)
          (if (List.replicate 21 (0 : Nat)).length = 0 then 2 ^ 64 - 1
            else 0) } :=
  ⟨by decide,
    open_without_signature_still_returns_archive (List.replicate 21 0)
      (by decide)⟩

/-- C2 counterexample: on a 5-byte all-zero source — which holds no
length-consistent EOCD signature — opening does not fail with
`EocdNotFound` (no typed error exists in the code): `ZipArchive::new`
returns this fully defined archive whose EOCD was parsed from offset 0
with every missing byte read as 0. -/
theorem open_short_source_counterexample :
    ZipArchive.new (List.replicate 5 0) =
      { local_file_data := []
        central_records := []
        eof_record :=
          { static_data := ⟨0, 0, 0, 0, 0, 0, 0, 0⟩
            start_offset := 0
            end_offset := 22
            comment := [] } } := by
  decide

/-- C1 (amended): the locator scans candidate offsets `L-1, L-2, ..., 1`
and returns the first — hence rightmost — offset whose 4-byte window
(zero-padded past end-of-file) equals the signature, with NO
length-consistency verification: for every matching offset `o` in
`1 .. L-1`, the returned offset also matches the signature and is `≥ o`,
whether or not `offset + 22 + comment_length = L` holds there. -/
theorem locator_returns_rightmost_signature_unchecked (f : List Nat)
    (o : Nat) (hL : f.length < 2 ^ 64) (h1 : 1 ≤ o) (h2 : o < f.length)
    (hs : sigAt f o) :
    sigAt f (eocdOffset f) ∧ o ≤ eocdOffset f ∧ eocdOffset f < f.length := by
  have hb := scanGo_bounds f f.length (f.length - 1) 1
  have hcle : scanGo f f.length (f.length - 1) 1 ≤ f.length - o := by
    by_contra hcon
    push_neg at hcon
    have hns := scanGo_not_skipped f f.length (f.length - 1) 1
      (f.length - o) (by omega) hcon
    rw [show f.length - (f.length - o) = o by omega] at hns
    exact hns hs
  have hbrk := scanGo_break f f.length (f.length - 1) 1 (by omega)
  have hoff : eocdOffset f =
      f.length - scanGo f f.length (f.length - 1) 1 := by
    show (f.length + 2 ^ 64 - scanGo f f.length (f.length - 1) 1) %
      2 ^ 64 = _
    rw [show f.length + 2 ^ 64 - scanGo f f.length (f.length - 1) 1 =
      (f.length - scanGo f f.length (f.length - 1) 1) + 2 ^ 64 by omega]
    rw [Nat.add_mod_right]
    exact Nat.mod_eq_of_lt (by omega)
  rw [hoff]
  exact ⟨hbrk, by omega, by omega⟩

/-- Witness for C1's amended theorem on `decoyFile`, at the matching
offset 26 (the decoy inside the comment). -/
theorem locator_returns_rightmost_signature_witness :
    decoyFile.length < 2 ^ 64 ∧ 1 ≤ 26 ∧ 26 < decoyFile.length ∧
    sigAt decoyFile 26 ∧
    (sigAt decoyFile (eocdOffset decoyFile) ∧
      26 ≤ eocdOffset decoyFile ∧ eocdOffset decoyFile < decoyFile.length) :=
  ⟨by decide, by decide, by decide, by decide,
    locator_returns_rightmost_signature_unchecked decoyFile 26 (by decide)
      (by decide) (by decide) (by decide)⟩

/-- C1 counterexample: on `decoyFile` the only length-consistent
signature offset is 0 (`0 + 22 + 8 = 30 = L`), yet the locator returns
the decoy offset 26 embedded in the comment, whose consistency check
fails (`26 + 22 + 0 ≠ 30`) — the scan does not continue backward past
the false match as the claim requires. -/
theorem locator_decoy_signature_counterexample :
    eocdOffset decoyFile = 26 ∧
    26 + 22 + (EofRecord.new decoyFile 26).static_data.comment_length ≠
      decoyFile.length ∧
    0 + 22 + (EofRecord.new decoyFile 0).static_data.comment_length =
      decoyFile.length := by
  refine ⟨by decide, by decide, by decide⟩

/-- C3 (code bug per spec section 9): construction is not atomic —
`ZipArchive::new` returns a bare archive, never a typed error, and
always leaves `central_records` empty.  On the 68-byte valid archive
`oneEntryArchive`, whose central directory parses to one entry, the
returned object is partial: its EOCD declares `total_cdr = 1` but no
central-directory record was parsed. -/
theorem open_returns_partial_archive :
    (ZipArchive.new oneEntryArchive).central_records = [] ∧
    (ZipArchive.new oneEntryArchive).eof_record.static_data.total_cdr = 1 ∧
    readCentralDirectory oneEntryArchive 0 1 46 = .ok [sampleCDEntry] := by
  refine ⟨rfl, by decide, by rfl⟩

/-- C8 (code bug per spec section 9): `entry_count` does not equal the
declared `total_cdr` for valid archives with entries — the opened
`oneEntryArchive` declares `total_cdr = 1` yet reports 0 entries.  Only
the "in particular" part of the claim holds: the minimal 22-byte empty
archive opens with `entry_count = 0 = total_cdr`. -/
theorem entry_count_always_zero :
    (ZipArchive.new oneEntryArchive).entry_count = 0 ∧
    (ZipArchive.new oneEntryArchive).eof_record.static_data.total_cdr = 1 ∧
    (ZipArchive.new minimalArchive).entry_count = 0 ∧
    (ZipArchive.new minimalArchive).eof_record.static_data.total_cdr = 0 := by
  refine ⟨rfl, by decide, rfl, by decide⟩

/-- C4: the Central Directory Reader decodes exactly `total_cdr`
records — each with magic `0x02014b50` and its name/extra/comment
buffers — and succeeds exactly when the cursor's final position minus
`offset_cdr_start` (the summed entry sizes) equals `size_of_cdr`;
otherwise it signals `CentralDirectorySizeMismatch`. -/
theorem central_directory_reader_correct :
    (∀ (f : List Nat) (off total size : Nat)
      (entries : List CentralDirectoryEntry),
      readCentralDirectory f off total size = .ok entries →
      entries.length = total ∧
      (∀ e ∈ entries, e.fixed.magic_number = 0x02014b50) ∧
      (entries.map CentralDirectoryEntry.size).sum = size) ∧
    (∀ (f : List Nat) (off total size : Nat)
      (es : List CentralDirectoryEntry) (fp : Nat),
      readCDFrom f off total = .ok (es, fp) → fp - off ≠ size →
      readCentralDirectory f off total size =
        .error ZipError.CentralDirectorySizeMismatch) := by
  constructor
  · intro f off total size entries h
    unfold readCentralDirectory at h
    split at h
    · cases h
    · next es fp hr =>
      split at h
      · next hsz =>
        cases h
        obtain ⟨hlen, hfp, hall⟩ := readCDFrom_ok hr
        exact ⟨hlen, hall, by omega⟩
      · cases h
  · intro f off total size es fp hr hne
    unfold readCentralDirectory
    split
    · next err heq => rw [hr] at heq; cases heq
    · next es' fp' heq =>
      rw [hr] at heq
      cases heq
      rw [if_neg hne]

/-- Witness for C4's theorem on `oneEntryArchive`, whose central
directory parses to the single all-zero entry. -/
theorem central_directory_reader_witness :
    readCentralDirectory oneEntryArchive 0 1 46 = .ok [sampleCDEntry] ∧
    ([sampleCDEntry].length = 1 ∧
      (∀ e ∈ [sampleCDEntry], e.fixed.magic_number = 0x02014b50) ∧
      ([sampleCDEntry].map CentralDirectoryEntry.size).sum = 46) :=
  ⟨by rfl,
    central_directory_reader_correct.1 oneEntryArchive 0 1 46
      [sampleCDEntry] (by rfl)⟩

/-- C5 (amended): after decoding the fixed body, the parser seeks to
`offset + 22` and reads UP TO `comment_length` bytes — a short read is
not an error: when fewer than `comment_length` bytes are available, the
comment buffer is the available bytes followed by zero fill, and no
`TruncatedComment` error is signaled (no error type exists in the
code). -/
theorem eof_comment_short_read_zero_fills (f : List Nat) (off : Nat)
    (hpos : (off + 22) % 2 ^ 64 ≤ f.length)
    (hshort : f.length < (off + 22) % 2 ^ 64 +
      (EofRecord.new f off).static_data.comment_length) :
    (EofRecord.new f off).comment =
      f.drop ((off + 22) % 2 ^ 64) ++
        List.replicate ((off + 22) % 2 ^ 64 +
          (EofRecord.new f off).static_data.comment_length - f.length)
          0 := by
  show readAt f ((off + 22) % 2 ^ 64)
      (EofRecord.new f off).static_data.comment_length = _
  unfold readAt
  have hdlen : (f.drop ((off + 22) % 2 ^ 64)).length =
      f.length - (off + 22) % 2 ^ 64 := List.length_drop _ _
  have htake : (f.drop ((off + 22) % 2 ^ 64)).take
      (EofRecord.new f off).static_data.comment_length =
      f.drop ((off + 22) % 2 ^ 64) := by
    apply List.take_of_length_le
    omega
  rw [htake]
  have hcount : (EofRecord.new f off).static_data.comment_length -
      (f.drop ((off + 22) % 2 ^ 64)).length =
      (off + 22) % 2 ^ 64 +
        (EofRecord.new f off).static_data.comment_length - f.length := by
    rw [hdlen]
    omega
  rw [hcount]

/-- Witness for C5's amended theorem on `truncFile` (declares a 5-byte
comment, only 2 bytes available). -/
theorem eof_comment_short_read_witness :
    (0 + 22) % 2 ^ 64 ≤ truncFile.length ∧
    truncFile.length < (0 + 22) % 2 ^ 64 +
      (EofRecord.new truncFile 0).static_data.comment_length ∧
    (EofRecord.new truncFile 0).comment =
      truncFile.drop ((0 + 22) % 2 ^ 64) ++
        List.replicate ((0 + 22) % 2 ^ 64 +
          (EofRecord.new truncFile 0).static_data.comment_length -
          truncFile.length) 0 :=
  ⟨by decide, by decide,
    eof_comment_short_read_zero_fills truncFile 0 (by decide) (by decide)⟩

/-- C5 counterexample: `truncFile` declares `comment_length = 5` but
holds only 2 comment bytes; parsing does not fail with
`TruncatedComment` — it produces a defined record whose comment is the
2 available bytes zero-filled to the declared length. -/
theorem truncated_comment_not_signaled_counterexample :
    (EofRecord.new truncFile 0).static_data.comment_length = 5 ∧
    truncFile.length = 24 ∧
    (EofRecord.new truncFile 0).comment = [0xAA, 0xBB, 0, 0, 0] := by
  refine ⟨by decide, by decide, by decide⟩

/-- C7: encoding then decoding via the Codec is the identity on every
field, for both the Central Directory File Header and the Local File
Header fixed layouts, for every record whose fields fit their declared
widths. -/
theorem codec_round_trip :
    (∀ r : CentralDirectoryFileHeader, r.wf →
      decodeCentralDirectoryFileHeader
        (encodeCentralDirectoryFileHeader r) = r) ∧
    (∀ r : LocalFileHeaderFixed, r.wf →
      decodeLocalFileHeaderFixed (encodeLocalFileHeaderFixed r) = r) := by
  constructor
  · intro r hwf
    simp only [CentralDirectoryFileHeader.wf] at hwf
    obtain ⟨h1, h2, h3, h4, h5, h6, h7, h8, h9, h10, h11, h12, h13, h14,
      h15, h16, h17⟩ := hwf
    norm_num at h1 h2 h3 h4 h5 h6 h7 h8 h9 h10 h11 h12 h13 h14 h15 h16 h17
    simp [encodeCentralDirectoryFileHeader,
      decodeCentralDirectoryFileHeader, take_leBytes_append,
      drop_leBytes_append, take_leBytes, leNum_leBytes,
      Nat.mod_eq_of_lt h1, Nat.mod_eq_of_lt h2, Nat.mod_eq_of_lt h3,
      Nat.mod_eq_of_lt h4, Nat.mod_eq_of_lt h5, Nat.mod_eq_of_lt h6,
      Nat.mod_eq_of_lt h7, Nat.mod_eq_of_lt h8, Nat.mod_eq_of_lt h9,
      Nat.mod_eq_of_lt h10, Nat.mod_eq_of_lt h11, Nat.mod_eq_of_lt h12,
      Nat.mod_eq_of_lt h13, Nat.mod_eq_of_lt h14, Nat.mod_eq_of_lt h15,
      Nat.mod_eq_of_lt h16, Nat.mod_eq_of_lt h17]
  · intro r hwf
    simp only [LocalFileHeaderFixed.wf] at hwf
    obtain ⟨h1, h2, h3, h4, h5, h6, h7, h8, h9, h10, h11⟩ := hwf
    norm_num at h1 h2 h3 h4 h5 h6 h7 h8 h9 h10 h11
    simp [encodeLocalFileHeaderFixed, decodeLocalFileHeaderFixed,
      take_leBytes_append, drop_leBytes_append, take_leBytes,
      leNum_leBytes, Nat.mod_eq_of_lt h1, Nat.mod_eq_of_lt h2,
      Nat.mod_eq_of_lt h3, Nat.mod_eq_of_lt h4, Nat.mod_eq_of_lt h5,
      Nat.mod_eq_of_lt h6, Nat.mod_eq_of_lt h7, Nat.mod_eq_of_lt h8,
      Nat.mod_eq_of_lt h9, Nat.mod_eq_of_lt h10, Nat.mod_eq_of_lt h11]

/-- Witness for C7's round-trip theorem at concrete sample records of
both layouts. -/
theorem codec_round_trip_witness :
    (sampleCDFH.wf ∧
      decodeCentralDirectoryFileHeader
        (encodeCentralDirectoryFileHeader sampleCDFH) = sampleCDFH) ∧
    (sampleLFH.wf ∧
      decodeLocalFileHeaderFixed
        (encodeLocalFileHeaderFixed sampleLFH) = sampleLFH) :=
  ⟨⟨by decide, codec_round_trip.1 sampleCDFH (by decide)⟩,
    ⟨by decide, codec_round_trip.2 sampleLFH (by decide)⟩⟩

end Rip
